import Mathlib

/-!
Verification of the Live Scoreboard engine (score update, anti-cheat
admission, leaderboard ranking) against its natural-language specification.

The definitions below are a shallow embedding of the TypeScript services:
`ScoreService` (token validation, score mutation, token issuance),
`AntiCheatService` (admission checks and rate counters) and
`CacheManager.calculateLeaderboard` (top-10 query), together with the
Sequelize row models `Action`, `Score` and `ScoreHistory`.

Timestamps are, as in the source, milliseconds since the epoch, held as
`Int`.  Database tables are lists of rows; Redis keys are association
lists.  A Sequelize transaction is modelled as one atomic step: on any
thrown error the transactional tables roll back to their pre-call value,
while Redis writes that already happened persist (they are outside the
transaction in the source as well).
-/

namespace Scoreboard

/-- The `Action.status` enum: `'pending' | 'completed' | 'failed'`. -/
inductive ActionStatus where
  | pending
  | completed
  | failed
deriving DecidableEq, Repr

/-- Row of the `Action` model (the action token): id, owner, kind, state,
single-use secret (`token`), creation and expiry instants. -/
structure ActionRecord where
  id : String
  userId : String
  actionType : String
  status : ActionStatus
  token : String
  createdAt : Int
  expiresAt : Int
  completedAt : Option Int
deriving DecidableEq, Repr

/-- Row of the `Score` model: one per user (unique `userId`). -/
structure ScoreRow where
  userId : String
  currentScore : Int
  totalActions : Int
  lastUpdated : Int
deriving DecidableEq, Repr

/-- Row of the `ScoreHistory` model: the append-only audit record written
by each committed mutation. -/
structure HistoryRow where
  userId : String
  actionId : String
  scoreChange : Int
  previousScore : Int
  newScore : Int
  timestamp : Int
deriving DecidableEq, Repr

/-- The transactional tables of the durable store. -/
structure Store where
  actions : List ActionRecord
  scores : List ScoreRow
  history : List HistoryRow
deriving DecidableEq, Repr

/-- The Redis keys touched by the services: `last_action:{u}`,
`action_count:{u}`, `suspicious:{u}` and `user_score:{u}`.  These live
outside any store transaction. -/
structure Cache where
  lastAction : List (String × Int)
  actionCount : List (String × Int)
  suspicious : List String
  userScore : List (String × Int)
deriving DecidableEq, Repr

/-- Whole system state: durable tables plus cache. -/
structure SysState where
  store : Store
  cache : Cache
deriving DecidableEq, Repr

/-- Call environment: the clock (`Date.now()` / `new Date()`), the SHA-256
checksum oracle `sha256(userId:actionType:scoreIncrement:SECRET)` seen as
a function of the hashed fields, and how many successive commit attempts
the durable store will fail with an optimistic-concurrency conflict. -/
structure Env where
  now : Int
  checksumOf : String → String → Int → String
  conflicts : Nat

/-- The `ScoreUpdateRequest` interface (metadata flattened). -/
structure ScoreUpdateRequest where
  userId : String
  actionId : String
  scoreIncrement : Int
  timestamp : Int
  actionType : String
  duration : Int
  checksum : String
deriving DecidableEq, Repr

/-- Result record of a successful `updateScore`:
`{ success: true, newScore, rank: newRank, previousRank }`. -/
structure UpdateResult where
  success : Bool
  newScore : Int
  rank : Option Int
  previousRank : Option Int
deriving DecidableEq, Repr

/-- Redis `SETEX`-style upsert into an association list. -/
def alistInsert (k : String) (v : Int) : List (String × Int) → List (String × Int)
  | [] => [(k, v)]
  | (k', v') :: rest => if k' == k then (k, v) :: rest else (k', v') :: alistInsert k v rest

/-- Embeds `AntiCheatService.validateChecksum`: the supplied checksum must equal the
recomputed SHA-256 over `(userId, actionType, scoreIncrement, secret)`. -/
def validateChecksum (env : Env) (r : ScoreUpdateRequest) : Bool :=
  r.checksum == env.checksumOf r.userId r.actionType r.scoreIncrement

/-- Embeds `AntiCheatService.getLastActionTime`: read of `last_action:{userId}`. -/
def getLastActionTime (s : SysState) (u : String) : Option Int :=
  s.cache.lastAction.lookup u

/-- Embeds `AntiCheatService.getActionCount`: read of `action_count:{userId}`
(the `windowSeconds` argument is ignored by the source as well). -/
def getActionCount (s : SysState) (u : String) (_windowSeconds : Int) : Int :=
  (s.cache.actionCount.lookup u).getD 0

/-- Embeds `AntiCheatService.getRecentActions`: history rows of the user whose
timestamp lies in the trailing window of `windowSeconds` seconds. -/
def getRecentActions (env : Env) (s : SysState) (u : String) (windowSeconds : Int) :
    List HistoryRow :=
  s.store.history.filter
    (fun h => h.userId == u && decide (env.now - windowSeconds * 1000 ≤ h.timestamp))

/-- Embeds `AntiCheatService.calculateScoreVelocity`: sum of `scoreChange` over the
user's history rows in the trailing window (`null` sum reads as 0). -/
def calculateScoreVelocity (env : Env) (s : SysState) (u : String) (windowSeconds : Int) : Int :=
  ((getRecentActions env s u windowSeconds).map (·.scoreChange)).sum

/-- Embeds `AntiCheatService.detectSuspiciousPatterns`: more than 10 actions in the
last 60 s, or score velocity above 1000 in the last hour. -/
def detectSuspiciousPatterns (env : Env) (s : SysState) (r : ScoreUpdateRequest) : Bool :=
  decide ((getRecentActions env s r.userId 60).length > 10)
    || decide (calculateScoreVelocity env s r.userId 3600 > 1000)

/-- Embeds `AntiCheatService.recordAction`: `SETEX last_action:{u}` to the request
timestamp and `INCR action_count:{u}` (TTL bookkeeping not modelled). -/
def recordAction (s : SysState) (r : ScoreUpdateRequest) : SysState :=
  { s with cache :=
    { s.cache with
      lastAction := alistInsert r.userId r.timestamp s.cache.lastAction,
      actionCount :=
        alistInsert r.userId (((s.cache.actionCount.lookup r.userId).getD 0) + 1)
          s.cache.actionCount } }

/-- The minimum-spacing test of `validateScoreUpdate` (lines 428-432): with a
recorded last action, reject when `request.timestamp - lastActionTime` is
below `minTimeBetweenActions = 1000` ms. -/
def spacingTooSmall (s : SysState) (r : ScoreUpdateRequest) : Bool :=
  match getLastActionTime s r.userId with
  | some t => decide (r.timestamp - t < 1000)
  | none => false

/-- Embeds `AntiCheatService.validateScoreUpdate`: the admission decision.  Checks
in source order — checksum, magnitude (`maxScorePerAction = 100`), minimum
spacing, hourly volume (`maxActionsPerHour = 100`), pattern detection —
returning `false` on the first failure; on acceptance the rate counters are
updated via `recordAction`. -/
def validateScoreUpdate (env : Env) (s : SysState) (r : ScoreUpdateRequest) :
    Bool × SysState :=
  if !(validateChecksum env r) then (false, s)
  else if decide (r.scoreIncrement > 100) then (false, s)
  else if spacingTooSmall s r then (false, s)
  else if decide (getActionCount s r.userId 3600 ≥ 100) then (false, s)
  else if detectSuspiciousPatterns env s r then (false, s)
  else (true, recordAction s r)

/-- The `where` clause of `ScoreService.validateActionToken`'s `findOne`:
`{ id: actionId, userId, token, status: 'pending' }`. -/
def actMatch (token actionId userId : String) (a : ActionRecord) : Bool :=
  a.id == actionId && a.userId == userId && a.token == token
    && a.status == ActionStatus.pending

/-- Embeds `ScoreService.validateActionToken`: looks up the pending action bound to
`(actionId, userId, token)`; throws the single error
`'Invalid or expired action token'` when no such row exists or when
`new Date() > action.expiresAt`. -/
def validateActionToken (env : Env) (s : SysState) (token actionId userId : String) :
    Except String ActionRecord :=
  match s.store.actions.find? (actMatch token actionId userId) with
  | none => .error "Invalid or expired action token"
  | some a =>
    if env.now > a.expiresAt then .error "Invalid or expired action token"
    else .ok a

/-- Modelled from the spec: `LeaderboardService.getUserRank` /
`updateUserScore` are referenced by `ScoreService` but their code is not in
the repository.  Per §4.4 rank is 1-based under descending-score order, so a
ranked user's rank is one plus the number of strictly higher scores;
`rankOf` is `none` (`NotRanked`) for users without a score row. -/
def rankOf (scores : List ScoreRow) (u : String) : Option Int :=
  match scores.find? (fun q => q.userId == u) with
  | none => none
  | some q =>
    some (1 + ((scores.filter (fun p => q.currentScore < p.currentScore)).length : Int))

/-- Embeds `ScoreService.updateScore`: the atomic mutation unit.  Inside one store
transaction: validate the action token, re-run admission, read the score row
under a row lock, write the new score, append the history row, mark the
action completed, commit.  Any failure rolls the transactional tables back
(Redis writes persist); a commit conflict (`env.conflicts ≠ 0`) likewise
aborts and is rethrown — the source has no retry loop (lines 207-210 simply
roll back and rethrow).  Queue publication is an external effect outside the
modelled state. -/
def updateScore (env : Env) (s : SysState) (r : ScoreUpdateRequest) (actionToken : String) :
    Except String UpdateResult × SysState :=
  match validateActionToken env s actionToken r.actionId r.userId with
  | .error e => (.error e, s)
  | .ok a =>
    match validateScoreUpdate env s r with
    | (false, _) =>
      (.error "Score update failed validation",
        { store := s.store,
          cache := { s.cache with suspicious := r.userId :: s.cache.suspicious } })
    | (true, s1) =>
      match s.store.scores.find? (fun q => q.userId == r.userId) with
      | none => (.error "User score not found", { store := s.store, cache := s1.cache })
      | some row =>
        if env.conflicts ≠ 0 then
          (.error "Store conflict", { store := s.store, cache := s1.cache })
        else
          (.ok { success := true,
                 newScore := row.currentScore + r.scoreIncrement,
                 rank := rankOf (s.store.scores.map (fun q =>
                   if q.userId == r.userId then
                     { q with currentScore := row.currentScore + r.scoreIncrement,
                              lastUpdated := env.now, totalActions := q.totalActions + 1 }
                   else q)) r.userId,
                 previousRank := rankOf s.store.scores r.userId },
           { store :=
             { actions := s.store.actions.map (fun b =>
                 if b.id == a.id then
                   { b with status := ActionStatus.completed, completedAt := some env.now }
                 else b),
               scores := s.store.scores.map (fun q =>
                 if q.userId == r.userId then
                   { q with currentScore := row.currentScore + r.scoreIncrement,
                            lastUpdated := env.now, totalActions := q.totalActions + 1 }
                 else q),
               history :=
                 { userId := r.userId, actionId := r.actionId,
                   scoreChange := r.scoreIncrement, previousScore := row.currentScore,
                   newScore := row.currentScore + r.scoreIncrement,
                   timestamp := r.timestamp } :: s.store.history },
             cache := { s1.cache with
               userScore :=
                 alistInsert r.userId (row.currentScore + r.scoreIncrement) s1.cache.userScore } })

/-- The pre-lock phase of `ScoreService.updateScore` (lines 143-156): token
validation and the anti-cheat re-check.  These reads run inside the
transaction but BEFORE the score row is locked — the `Action.findOne` of
`validateActionToken` takes no row lock, so under concurrent execution a
second in-flight call can pass this phase with the same still-pending
token.  On success it returns the captured action instance; on failure the
transaction aborts with the tables untouched (the suspicious flag is a
Redis write and persists). -/
def updateScorePhaseA (env : Env) (s : SysState) (r : ScoreUpdateRequest)
    (actionToken : String) : Except String ActionRecord × SysState :=
  match validateActionToken env s actionToken r.actionId r.userId with
  | .error e => (.error e, s)
  | .ok a =>
    match validateScoreUpdate env s r with
    | (false, _) =>
      (.error "Score update failed validation",
        { store := s.store,
          cache := { s.cache with suspicious := r.userId :: s.cache.suspicious } })
    | (true, s1) => (.ok a, s1)

/-- The locked phase of `ScoreService.updateScore` (lines 158-206): runs
once the per-user `SELECT ... FOR UPDATE` row lock is granted, against the
then-current committed state; reads the score row, writes the new score,
appends the history row, marks the action instance captured in the pre-lock
phase completed (the `update` carries no `status = 'pending'` guard) and
commits.  On failure the transaction rolls back, leaving the tables as they
were when the lock was granted. -/
def updateScorePhaseB (env : Env) (s : SysState) (r : ScoreUpdateRequest)
    (a : ActionRecord) : Except String UpdateResult × SysState :=
  match s.store.scores.find? (fun q => q.userId == r.userId) with
  | none => (.error "User score not found", s)
  | some row =>
    if env.conflicts ≠ 0 then
      (.error "Store conflict", s)
    else
      (.ok { success := true,
             newScore := row.currentScore + r.scoreIncrement,
             rank := rankOf (s.store.scores.map (fun q =>
               if q.userId == r.userId then
                 { q with currentScore := row.currentScore + r.scoreIncrement,
                          lastUpdated := env.now, totalActions := q.totalActions + 1 }
               else q)) r.userId,
             previousRank := rankOf s.store.scores r.userId },
       { store :=
         { actions := s.store.actions.map (fun b =>
             if b.id == a.id then
               { b with status := ActionStatus.completed, completedAt := some env.now }
             else b),
           scores := s.store.scores.map (fun q =>
             if q.userId == r.userId then
               { q with currentScore := row.currentScore + r.scoreIncrement,
                        lastUpdated := env.now, totalActions := q.totalActions + 1 }
             else q),
           history :=
             { userId := r.userId, actionId := r.actionId,
               scoreChange := r.scoreIncrement, previousScore := row.currentScore,
               newScore := row.currentScore + r.scoreIncrement,
               timestamp := r.timestamp } :: s.store.history },
         cache := { s.cache with
           userScore :=
             alistInsert r.userId (row.currentScore + r.scoreIncrement)
               s.cache.userScore } })

/-- Return record of `ScoreService.generateActionToken`. -/
structure IssuedToken where
  actionId : String
  token : String
  expiresAt : Int
deriving DecidableEq, Repr

/-- Embeds `ScoreService.generateActionToken`: mints a pending action token whose
expiry is `Date.now() + 300000` ms.  The random draws (`crypto.randomUUID`,
`crypto.randomBytes`) are passed in as `actionId` and `token`. -/
def generateActionToken (env : Env) (s : SysState) (userId actionType actionId token : String) :
    IssuedToken × SysState :=
  let expiresAt := env.now + 300000
  let a : ActionRecord :=
    { id := actionId, userId := userId, actionType := actionType,
      status := ActionStatus.pending, token := token,
      createdAt := env.now, expiresAt := expiresAt, completedAt := none }
  ({ actionId := actionId, token := token, expiresAt := expiresAt },
   { s with store := { s.store with actions := a :: s.store.actions } })

/-- Descending insertion by `currentScore`: the row goes in front of the
first strictly smaller score, after any equal scores already present. -/
def insertByScoreDesc (x : ScoreRow) : List ScoreRow → List ScoreRow
  | [] => [x]
  | y :: ys =>
    if y.currentScore ≤ x.currentScore then x :: y :: ys
    else y :: insertByScoreDesc x ys

/-- Stable descending sort by `currentScore`: equal scores keep the table's
row order, as a plain `ORDER BY currentScore DESC` does. -/
def sortByScoreDesc : List ScoreRow → List ScoreRow
  | [] => []
  | x :: xs => insertByScoreDesc x (sortByScoreDesc xs)

/-- Embeds `CacheManager.calculateLeaderboard`: `Score.findAll` ordered by
`currentScore DESC` with `limit: 10` — no secondary sort key. -/
def calculateLeaderboard (scores : List ScoreRow) : List ScoreRow :=
  (sortByScoreDesc scores).take 10

/-- Whether an `Except` result is a success. -/
def exceptOk {ε α : Type} : Except ε α → Bool
  | .ok _ => true
  | .error _ => false

/-- The user's current score read from the score table, defaulting to 0
when the user has no row. -/
def scoreD (s : SysState) (u : String) : Int :=
  ((s.store.scores.find? (fun q => q.userId == u)).map (·.currentScore)).getD 0

/-- Well-formedness of the durable tables: the unique constraints of the
models (`Score.userId` unique, `Action.id` primary key), pairwise-distinct
`actionId` references in the history, and every still-pending action id
absent from the history (a pending token has not been consumed yet). -/
def Inv (s : SysState) : Prop :=
  (s.store.scores.map (·.userId)).Nodup ∧
  (s.store.actions.map (·.id)).Nodup ∧
  (s.store.history.map (·.actionId)).Nodup ∧
  ∀ a ∈ s.store.actions, a.status = ActionStatus.pending →
    a.id ∉ s.store.history.map (·.actionId)

instance (s : SysState) : Decidable (Inv s) := by
  unfold Inv; infer_instance

/-- One submitAction call: the environment of the call, the request body and
the action token presented. -/
structure Call where
  env : Env
  req : ScoreUpdateRequest
  actionToken : String

/-- State after a SERIALIZED sequence of `updateScore` calls: each atomic
unit runs to completion before the next starts.  This models only
non-overlapping executions; concurrent executions, where the unlocked token
read of one call can precede the commit of another, are modelled by the
phase split `updateScorePhaseA` / `updateScorePhaseB` below. -/
def runCalls : List Call → SysState → SysState
  | [], s => s
  | c :: cs, s => runCalls cs (updateScore c.env s c.req c.actionToken).2

/-- Sum of the score increments of exactly the calls in the sequence that
are accepted (result `ok`, i.e. token consumed and delta applied) for the
given user. -/
def acceptedSum (u : String) : List Call → SysState → Int
  | [], _ => 0
  | c :: cs, s =>
    (if exceptOk (updateScore c.env s c.req c.actionToken).1 && (c.req.userId == u)
      then c.req.scoreIncrement else 0)
      + acceptedSum u cs (updateScore c.env s c.req c.actionToken).2

section Lemmas

/-- The lookup `validateActionToken` succeeds exactly when the `findOne` locates a row
and the clock has not passed `expiresAt`. -/
theorem validateActionToken_ok_iff (env : Env) (s : SysState) (tok aid uid : String)
    (a : ActionRecord) :
    validateActionToken env s tok aid uid = .ok a ↔
      s.store.actions.find? (actMatch tok aid uid) = some a ∧ env.now ≤ a.expiresAt := by
  unfold validateActionToken
  cases h : s.store.actions.find? (actMatch tok aid uid) with
  | none => simp
  | some b =>
    by_cases hc : env.now > b.expiresAt
    · simp only [hc, if_pos]
      constructor
      · intro hx; cases hx
      · rintro ⟨hb, hle⟩
        cases hb
        omega
    · simp only [hc, if_neg, not_false_iff]
      constructor
      · intro hx
        cases hx
        exact ⟨rfl, by omega⟩
      · rintro ⟨hb, _⟩
        cases hb
        rfl

/-- A failed `validateActionToken` always carries the one generic error
string, whatever the cause (unknown, mismatched, consumed or expired). -/
theorem validateActionToken_error (env : Env) (s : SysState) (tok aid uid : String)
    (h : exceptOk (validateActionToken env s tok aid uid) = false) :
    validateActionToken env s tok aid uid = .error "Invalid or expired action token" := by
  unfold validateActionToken at *
  cases hf : s.store.actions.find? (actMatch tok aid uid) with
  | none => rfl
  | some b =>
    rw [hf] at h
    simp only at h ⊢
    by_cases hc : env.now > b.expiresAt
    · rw [if_pos hc]
    · rw [if_neg hc] at h
      simp [exceptOk] at h

/-- Master case analysis of one `updateScore` call: either it fails and the
transactional tables roll back to their pre-call value, or it succeeds and
the result and post-state are exactly the committed mutation. -/
theorem updateScore_cases {env : Env} {s : SysState} {r : ScoreUpdateRequest}
    {tok : String} {res : Except String UpdateResult} {s' : SysState}
    (h : updateScore env s r tok = (res, s')) :
    (exceptOk res = false ∧ s'.store = s.store) ∨
    (∃ a s1 row,
      s.store.actions.find? (actMatch tok r.actionId r.userId) = some a ∧
      env.now ≤ a.expiresAt ∧
      validateScoreUpdate env s r = (true, s1) ∧
      s.store.scores.find? (fun q => q.userId == r.userId) = some row ∧
      env.conflicts = 0 ∧
      res = .ok { success := true,
                  newScore := row.currentScore + r.scoreIncrement,
                  rank := rankOf (s.store.scores.map (fun q =>
                    if q.userId == r.userId then
                      { q with currentScore := row.currentScore + r.scoreIncrement,
                               lastUpdated := env.now, totalActions := q.totalActions + 1 }
                    else q)) r.userId,
                  previousRank := rankOf s.store.scores r.userId } ∧
      s' = { store :=
             { actions := s.store.actions.map (fun b =>
                 if b.id == a.id then
                   { b with status := ActionStatus.completed, completedAt := some env.now }
                 else b),
               scores := s.store.scores.map (fun q =>
                 if q.userId == r.userId then
                   { q with currentScore := row.currentScore + r.scoreIncrement,
                            lastUpdated := env.now, totalActions := q.totalActions + 1 }
                 else q),
               history :=
                 { userId := r.userId, actionId := r.actionId,
                   scoreChange := r.scoreIncrement, previousScore := row.currentScore,
                   newScore := row.currentScore + r.scoreIncrement,
                   timestamp := r.timestamp } :: s.store.history },
             cache := { s1.cache with
               userScore :=
                 alistInsert r.userId (row.currentScore + r.scoreIncrement)
                   s1.cache.userScore } }) := by
  unfold updateScore at h
  split at h
  · next e heq =>
    injection h with h1 h2
    subst h1; subst h2
    exact Or.inl ⟨rfl, rfl⟩
  · next a heq =>
    split at h
    · next s1x heqv =>
      injection h with h1 h2
      subst h1; subst h2
      exact Or.inl ⟨rfl, rfl⟩
    · next s1 heqv =>
      split at h
      · next heqf =>
        injection h with h1 h2
        subst h1; subst h2
        exact Or.inl ⟨rfl, rfl⟩
      · next row heqf =>
        split at h
        · next hc =>
          injection h with h1 h2
          subst h1; subst h2
          exact Or.inl ⟨rfl, rfl⟩
        · next hc =>
          injection h with h1 h2
          subst h1; subst h2
          obtain ⟨hfind, hle⟩ :=
            (validateActionToken_ok_iff env s tok r.actionId r.userId a).mp heq
          exact Or.inr ⟨a, s1, row, hfind, hle, heqv, heqf, by omega, rfl, rfl⟩

/-- Rollback: whenever `updateScore` ends in an error, the transactional
tables are exactly those before the call — no score change, no history row,
no token transition. -/
theorem updateScore_error_store {env : Env} {s : SysState} {r : ScoreUpdateRequest}
    {tok : String} {e : String} {s' : SysState}
    (h : updateScore env s r tok = (.error e, s')) : s'.store = s.store := by
  rcases updateScore_cases h with hl | ⟨a, s1, row, _, _, _, _, _, hres, _⟩
  · exact hl.2
  · cases hres

/-- Characterization of a successful `updateScore`: the matched pending
action, the admission acceptance, the locked score row, a conflict-free
commit, and the exact contents of the post-state and of the result. -/
theorem updateScore_ok_spec {env : Env} {s : SysState} {r : ScoreUpdateRequest}
    {tok : String} {res : UpdateResult} {s' : SysState}
    (h : updateScore env s r tok = (.ok res, s')) :
    ∃ a row,
      s.store.actions.find? (actMatch tok r.actionId r.userId) = some a ∧
      env.now ≤ a.expiresAt ∧
      (validateScoreUpdate env s r).1 = true ∧
      s.store.scores.find? (fun q => q.userId == r.userId) = some row ∧
      env.conflicts = 0 ∧
      s'.store.scores = s.store.scores.map (fun q =>
        if q.userId == r.userId then
          { q with currentScore := row.currentScore + r.scoreIncrement,
                   lastUpdated := env.now, totalActions := q.totalActions + 1 }
        else q) ∧
      s'.store.history =
        { userId := r.userId, actionId := r.actionId, scoreChange := r.scoreIncrement,
          previousScore := row.currentScore,
          newScore := row.currentScore + r.scoreIncrement,
          timestamp := r.timestamp } :: s.store.history ∧
      s'.store.actions = s.store.actions.map (fun b =>
        if b.id == a.id then
          { b with status := ActionStatus.completed, completedAt := some env.now }
        else b) ∧
      res = { success := true, newScore := row.currentScore + r.scoreIncrement,
              rank := rankOf s'.store.scores r.userId,
              previousRank := rankOf s.store.scores r.userId } := by
  rcases updateScore_cases h with hl | ⟨a, s1, row, hfind, hle, heqv, heqf, hc, hres, hstate⟩
  · simp [exceptOk] at hl
  · subst hstate
    injection hres with hres'
    exact ⟨a, row, hfind, hle, by rw [heqv], heqf, hc, rfl, rfl, rfl, hres'⟩

/-- Lookup with `find?` on `userId` commutes with a row transformation that keeps every
row's `userId` (an SQL `UPDATE` does not change the key). -/
theorem find?_map_userId (f : ScoreRow → ScoreRow) (hf : ∀ q, (f q).userId = q.userId)
    (l : List ScoreRow) (u : String) :
    (l.map f).find? (fun q => q.userId == u) = (l.find? (fun q => q.userId == u)).map f := by
  induction l with
  | nil => rfl
  | cons x xs ih =>
    cases hx : (x.userId == u) with
    | true =>
      have hfx : ((f x).userId == u) = true := by rw [hf]; exact hx
      rw [List.map_cons,
        List.find?_cons_of_pos (p := fun q : ScoreRow => q.userId == u) _ hfx,
        List.find?_cons_of_pos (p := fun q : ScoreRow => q.userId == u) _ hx,
        Option.map_some']
    | false =>
      have hfx : ((f x).userId == u) = false := by rw [hf]; exact hx
      rw [List.map_cons,
        List.find?_cons_of_neg (p := fun q : ScoreRow => q.userId == u) _ (by simp [hfx]),
        List.find?_cons_of_neg (p := fun q : ScoreRow => q.userId == u) _ (by simp [hx]), ih]

/-- Mapping a `userId`-preserving transformation leaves the key column
unchanged. -/
theorem map_userId_map (f : ScoreRow → ScoreRow) (hf : ∀ q, (f q).userId = q.userId)
    (l : List ScoreRow) : (l.map f).map (·.userId) = l.map (·.userId) := by
  induction l with
  | nil => rfl
  | cons x xs ih => simp [hf, ih]

/-- Mapping an `id`-preserving transformation leaves the key column
unchanged. -/
theorem map_id_map (f : ActionRecord → ActionRecord) (hf : ∀ b, (f b).id = b.id)
    (l : List ActionRecord) : (l.map f).map (·.id) = l.map (·.id) := by
  induction l with
  | nil => rfl
  | cons x xs ih => simp [hf, ih]

/-- The score-row update of `updateScore` keeps each row's `userId`. -/
theorem scoreUpd_userId (r : ScoreUpdateRequest) (ns lu : Int) (q : ScoreRow) :
    ((if q.userId == r.userId then
        { q with currentScore := ns, lastUpdated := lu,
                 totalActions := q.totalActions + 1 }
      else q) : ScoreRow).userId = q.userId := by
  by_cases hq : (q.userId == r.userId) = true <;> simp [hq]

/-- The action-row update of `updateScore` keeps each row's `id`. -/
theorem actUpd_id (aid : String) (t : Int) (b : ActionRecord) :
    ((if b.id == aid then
        { b with status := ActionStatus.completed, completedAt := some t }
      else b) : ActionRecord).id = b.id := by
  by_cases hb : (b.id == aid) = true <;> simp [hb]

/-- Every call, accepted or failed, preserves the table invariants. -/
theorem updateScore_preserves_Inv {env : Env} {s : SysState} {r : ScoreUpdateRequest}
    {tok : String} {res : Except String UpdateResult} {s' : SysState}
    (h : updateScore env s r tok = (res, s')) (hi : Inv s) : Inv s' := by
  rcases updateScore_cases h with ⟨_, hst⟩ | ⟨a, s1, row, hfind, _, _, _, _, _, hstate⟩
  · unfold Inv at hi ⊢
    rw [hst]
    exact hi
  · subst hstate
    obtain ⟨h1, h2, h3, h4⟩ := hi
    have hmem : a ∈ s.store.actions := List.mem_of_find?_eq_some hfind
    have hpa : actMatch tok r.actionId r.userId a = true := List.find?_some hfind
    unfold actMatch at hpa
    simp only [Bool.and_eq_true, beq_iff_eq] at hpa
    obtain ⟨⟨⟨hid, _⟩, _⟩, hpend⟩ := hpa
    have hnotin : a.id ∉ s.store.history.map (·.actionId) := h4 a hmem hpend
    refine ⟨?_, ?_, ?_, ?_⟩
    · show ((s.store.scores.map (fun q =>
          if q.userId == r.userId then
            { q with currentScore := row.currentScore + r.scoreIncrement,
                     lastUpdated := env.now, totalActions := q.totalActions + 1 }
          else q)).map (·.userId)).Nodup
      rw [map_userId_map _ (scoreUpd_userId r _ _)]
      exact h1
    · show ((s.store.actions.map (fun b =>
          if b.id == a.id then
            { b with status := ActionStatus.completed, completedAt := some env.now }
          else b)).map (·.id)).Nodup
      rw [map_id_map _ (actUpd_id a.id env.now)]
      exact h2
    · show (r.actionId :: s.store.history.map (·.actionId)).Nodup
      rw [List.nodup_cons]
      exact ⟨hid ▸ hnotin, h3⟩
    · intro b' hb' hpend'
      obtain ⟨b, hb, rfl⟩ := List.mem_map.mp hb'
      by_cases hbid : (b.id == a.id) = true
      · exfalso
        simp only [hbid, if_pos] at hpend'
        cases hpend'
      · have hgb :
          (if b.id == a.id then
            { b with status := ActionStatus.completed, completedAt := some env.now }
          else b) = b := by simp [hbid]
        rw [hgb] at hpend' ⊢
        have hbid' : b.id ≠ a.id := by
          intro hcontra
          exact hbid (by simp [hcontra])
        have hold : b.id ∉ s.store.history.map (·.actionId) := h4 b hb hpend'
        intro hmemnew
        rcases List.mem_cons.mp hmemnew with hcase | hcase
        · exact hbid' (hcase.trans hid.symm)
        · exact hold hcase

/-- Per-call score accounting: an accepted call adds exactly its increment to
its own user's score; a failed call changes no score; no call ever changes
another user's score. -/
theorem scoreD_step {env : Env} {s : SysState} {r : ScoreUpdateRequest}
    {tok : String} {res : Except String UpdateResult} {s' : SysState}
    (h : updateScore env s r tok = (res, s')) (u : String) :
    scoreD s' u =
      scoreD s u + (if exceptOk res && (r.userId == u) then r.scoreIncrement else 0) := by
  rcases updateScore_cases h with ⟨hfalse, hst⟩ | ⟨a, s1, row, _, _, _, heqf, _, hres, hstate⟩
  · rw [hfalse]
    unfold scoreD
    rw [hst]
    simp
  · subst hstate
    rw [hres]
    unfold scoreD
    show ((((s.store.scores.map (fun q =>
        if q.userId == r.userId then
          { q with currentScore := row.currentScore + r.scoreIncrement,
                   lastUpdated := env.now, totalActions := q.totalActions + 1 }
        else q))).find? (fun q => q.userId == u)).map (·.currentScore)).getD 0 =
      ((((s.store.scores.find? (fun q => q.userId == u))).map (·.currentScore)).getD 0) +
        (if exceptOk (Except.ok (α := UpdateResult) _) && (r.userId == u)
          then r.scoreIncrement else 0)
    rw [find?_map_userId _ (scoreUpd_userId r _ _)]
    cases hru : (r.userId == u) with
    | true =>
      have hru' : r.userId = u := by simpa using hru
      subst hru'
      rw [heqf]
      have hrow : row.userId = r.userId := by
        simpa using List.find?_some heqf
      simp [exceptOk, hrow]
    | false =>
      cases hfu : s.store.scores.find? (fun q => q.userId == u) with
      | none => simp [exceptOk]
      | some q0 =>
        have h1 : q0.userId = u := by simpa using List.find?_some hfu
        have h2 : r.userId ≠ u := by
          intro hcontra
          rw [hcontra] at hru
          simp at hru
        have hq0r : ¬(q0.userId = r.userId) := by
          rw [h1]
          intro hcontra
          exact h2 hcontra.symm
        simp [exceptOk, hq0r]

/-- Invariants hold after any whole sequence of calls. -/
theorem runCalls_preserves_Inv (cs : List Call) (s : SysState) (hi : Inv s) :
    Inv (runCalls cs s) := by
  induction cs generalizing s with
  | nil => exact hi
  | cons c cs ih =>
    unfold runCalls
    cases hu : updateScore c.env s c.req c.actionToken with
    | mk res s' =>
      exact ih s' (updateScore_preserves_Inv hu hi)

/-- Conservation over a whole run: the final score of any user is the initial
score plus the sum of the increments of exactly the accepted calls. -/
theorem runCalls_conservation (u : String) (cs : List Call) (s : SysState) (hi : Inv s) :
    scoreD (runCalls cs s) u = scoreD s u + acceptedSum u cs s := by
  induction cs generalizing s with
  | nil =>
    unfold runCalls acceptedSum
    omega
  | cons c cs ih =>
    unfold runCalls acceptedSum
    cases hu : updateScore c.env s c.req c.actionToken with
    | mk res s' =>
      have hInv' := updateScore_preserves_Inv hu hi
      have hstep := scoreD_step hu u
      rw [ih s' hInv', hstep]
      cases hcond : (exceptOk res && (c.req.userId == u))
      all_goals simp
      all_goals omega

/-- Membership is preserved by the descending insertion. -/
theorem mem_insertByScoreDesc {x z : ScoreRow} {l : List ScoreRow} :
    z ∈ insertByScoreDesc x l ↔ z = x ∨ z ∈ l := by
  induction l with
  | nil => simp [insertByScoreDesc]
  | cons y ys ih =>
    unfold insertByScoreDesc
    by_cases h : y.currentScore ≤ x.currentScore
    · simp [h]
    · rw [if_neg h]
      simp only [List.mem_cons, ih]
      tauto

/-- Inserting into a descending-sorted list keeps it descending-sorted. -/
theorem pairwise_insertByScoreDesc {x : ScoreRow} {l : List ScoreRow}
    (h : l.Pairwise (fun a b => b.currentScore ≤ a.currentScore)) :
    (insertByScoreDesc x l).Pairwise (fun a b => b.currentScore ≤ a.currentScore) := by
  induction l with
  | nil => simp [insertByScoreDesc]
  | cons y ys ih =>
    rcases List.pairwise_cons.mp h with ⟨hy, hys⟩
    unfold insertByScoreDesc
    by_cases hc : y.currentScore ≤ x.currentScore
    · rw [if_pos hc]
      refine List.pairwise_cons.mpr ⟨?_, h⟩
      intro z hz
      rcases List.mem_cons.mp hz with rfl | hz'
      · exact hc
      · exact le_trans (hy z hz') hc
    · rw [if_neg hc]
      refine List.pairwise_cons.mpr ⟨?_, ih hys⟩
      intro z hz
      rcases mem_insertByScoreDesc.mp hz with rfl | hz'
      · omega
      · exact hy z hz'

/-- The sort used by the leaderboard query is descending in `currentScore`. -/
theorem pairwise_sortByScoreDesc (l : List ScoreRow) :
    (sortByScoreDesc l).Pairwise (fun a b => b.currentScore ≤ a.currentScore) := by
  induction l with
  | nil => simp [sortByScoreDesc]
  | cons x xs ih => exact pairwise_insertByScoreDesc ih

/-- The sort reorders and loses nothing. -/
theorem mem_sortByScoreDesc {z : ScoreRow} {l : List ScoreRow} :
    z ∈ sortByScoreDesc l ↔ z ∈ l := by
  induction l with
  | nil => simp [sortByScoreDesc]
  | cons x xs ih =>
    unfold sortByScoreDesc
    rw [mem_insertByScoreDesc]
    simp [ih]

/-- A call whose token lookup fails is rejected outright with the generic
error, leaving the whole state untouched. -/
theorem updateScore_invalid_token {env : Env} {s : SysState} {r : ScoreUpdateRequest}
    {tok : String}
    (h : s.store.actions.find? (actMatch tok r.actionId r.userId) = none) :
    updateScore env s r tok = (.error "Invalid or expired action token", s) := by
  unfold updateScore validateActionToken
  rw [h]

/-- A call that reaches the commit while the store reports a conflict aborts
with the conflict error and rolls the tables back — there is no retry. -/
theorem updateScore_conflict {env : Env} {s : SysState} {r : ScoreUpdateRequest} {tok : String}
    {a : ActionRecord} {s1 : SysState} {row : ScoreRow}
    (hv : validateActionToken env s tok r.actionId r.userId = .ok a)
    (hs : validateScoreUpdate env s r = (true, s1))
    (hf : s.store.scores.find? (fun q => q.userId == r.userId) = some row)
    (hc : env.conflicts ≠ 0) :
    updateScore env s r tok =
      (.error "Store conflict", { store := s.store, cache := s1.cache }) := by
  unfold updateScore
  simp only [hv, hs, hf]
  rw [if_pos hc]

/-- The admission check `validateScoreUpdate` ignores the store-conflict component of the
environment (it touches no store write). -/
theorem validateScoreUpdate_conflicts (now : Int) (hash : String → String → Int → String)
    (c1 c2 : Nat) (s : SysState) (r : ScoreUpdateRequest) :
    validateScoreUpdate ⟨now, hash, c1⟩ s r = validateScoreUpdate ⟨now, hash, c2⟩ s r := rfl

/-- The token lookup `validateActionToken` ignores the store-conflict component of the
environment. -/
theorem validateActionToken_conflicts (now : Int) (hash : String → String → Int → String)
    (c1 c2 : Nat) (s : SysState) (tok aid uid : String) :
    validateActionToken ⟨now, hash, c1⟩ s tok aid uid =
      validateActionToken ⟨now, hash, c2⟩ s tok aid uid := rfl

/-- The admission check never touches the transactional tables: its state
effect is confined to the Redis counters. -/
theorem validateScoreUpdate_snd_store (env : Env) (s : SysState) (r : ScoreUpdateRequest) :
    (validateScoreUpdate env s r).2.store = s.store := by
  unfold validateScoreUpdate
  repeat' split
  all_goals rfl

/-- Faithfulness of the phase split: running the pre-lock phase and the
locked phase back to back, with no interleaved commit, is exactly
`updateScore`.  The split adds nothing — it only exposes the point at which
the source's transaction has read the pending token but not yet taken the
score-row lock. -/
theorem updateScore_eq_phases (env : Env) (s : SysState) (r : ScoreUpdateRequest)
    (tok : String) :
    updateScore env s r tok =
      (match updateScorePhaseA env s r tok with
       | (.error e, s1) => (.error e, s1)
       | (.ok a, s1) => updateScorePhaseB env s1 r a) := by
  unfold updateScore updateScorePhaseA updateScorePhaseB
  cases hv : validateActionToken env s tok r.actionId r.userId with
  | error e => rfl
  | ok a =>
    cases hs : validateScoreUpdate env s r with
    | mk ok1 s1 =>
      cases ok1 with
      | false => rfl
      | true =>
        have hstore : s1.store = s.store := by
          have h2 : (validateScoreUpdate env s r).2 = s1 := by rw [hs]
          rw [← h2]
          exact validateScoreUpdate_snd_store env s r
        have hs1 : s1 = { store := s.store, cache := s1.cache } := by
          rw [← hstore]
        rw [hs1]

end Lemmas

section Fixtures

/-- A concrete checksum oracle for closed evaluations. -/
def exHash : String → String → Int → String := fun _ _ _ => "c"

/-- Environment at clock 500 ms, no store conflicts. -/
def exEnv : Env := ⟨500, exHash, 0⟩

/-- Environment at clock 2000 ms, no store conflicts. -/
def exEnvB : Env := ⟨2000, exHash, 0⟩

/-- Environment whose clock sits exactly on `exAction`'s expiry instant. -/
def exEnvExp : Env := ⟨1000, exHash, 0⟩

/-- A pending action token for user `u1`, expiring at 1000 ms. -/
def exAction : ActionRecord :=
  { id := "a1", userId := "u1", actionType := "play", status := ActionStatus.pending,
    token := "tok1", createdAt := 0, expiresAt := 1000, completedAt := none }

/-- A second pending action token for user `u1`, expiring at 100000 ms. -/
def exAction2 : ActionRecord :=
  { id := "a2", userId := "u1", actionType := "play", status := ActionStatus.pending,
    token := "tok2", createdAt := 0, expiresAt := 100000, completedAt := none }

/-- State with one pending token and user `u1` at score 100. -/
def exState : SysState :=
  { store := { actions := [exAction], scores := [⟨"u1", 100, 0, 0⟩], history := [] },
    cache := { lastAction := [], actionCount := [], suspicious := [], userScore := [] } }

/-- State with two pending tokens and user `u1` at score 100. -/
def exState2 : SysState :=
  { store := { actions := [exAction, exAction2], scores := [⟨"u1", 100, 0, 0⟩], history := [] },
    cache := { lastAction := [], actionCount := [], suspicious := [], userScore := [] } }

/-- A valid update request: +50 for `u1` through token `a1`. -/
def exReq : ScoreUpdateRequest :=
  { userId := "u1", actionId := "a1", scoreIncrement := 50, timestamp := 500,
    actionType := "play", duration := 0, checksum := "c" }

/-- A valid update request: +30 for `u1` through token `a2`, 1500 ms later. -/
def exReqB : ScoreUpdateRequest :=
  { userId := "u1", actionId := "a2", scoreIncrement := 30, timestamp := 2000,
    actionType := "play", duration := 0, checksum := "c" }

/-- Two accepted submitAction calls for the same user with distinct tokens. -/
def exCalls : List Call := [⟨exEnv, exReq, "tok1"⟩, ⟨exEnvB, exReqB, "tok2"⟩]

/-- State for the result-shape comparison: `u1` at score 10. -/
def exState8a : SysState :=
  { store := { actions := [exAction], scores := [⟨"u1", 10, 0, 0⟩], history := [] },
    cache := { lastAction := [], actionCount := [], suspicious := [], userScore := [] } }

/-- State for the result-shape comparison: `u1` at score 5. -/
def exState8b : SysState :=
  { store := { actions := [exAction], scores := [⟨"u1", 5, 0, 0⟩], history := [] },
    cache := { lastAction := [], actionCount := [], suspicious := [], userScore := [] } }

/-- Request adding +5 (paired with `exState8a`). -/
def exReq8a : ScoreUpdateRequest := { exReq with scoreIncrement := 5 }

/-- Request adding +10 (paired with `exState8b`). -/
def exReq8b : ScoreUpdateRequest := { exReq with scoreIncrement := 10 }

/-- The single pending token of the race scenario: long expiry (100000 ms)
so both interleaved calls present it unexpired. -/
def rcAction : ActionRecord :=
  { id := "a1", userId := "u1", actionType := "play", status := ActionStatus.pending,
    token := "tok1", createdAt := 0, expiresAt := 100000, completedAt := none }

/-- Race scenario initial state: exactly one pending token, `u1` at 100. -/
def rcState : SysState :=
  { store := { actions := [rcAction], scores := [⟨"u1", 100, 0, 0⟩], history := [] },
    cache := { lastAction := [], actionCount := [], suspicious := [], userScore := [] } }

/-- First concurrent request: +50 through token `a1`, client time 500. -/
def rcReq1 : ScoreUpdateRequest :=
  { userId := "u1", actionId := "a1", scoreIncrement := 50, timestamp := 500,
    actionType := "play", duration := 0, checksum := "c" }

/-- Second concurrent request: +50 through the SAME token `a1`, client time
2000 (far enough apart to pass the minimum-spacing check). -/
def rcReq2 : ScoreUpdateRequest :=
  { userId := "u1", actionId := "a1", scoreIncrement := 50, timestamp := 2000,
    actionType := "play", duration := 0, checksum := "c" }

/-- Committed state after the interleaved schedule A1, A2, B1, B2 of two
transactions sharing the one token: both pre-lock phases (unlocked token
read + admission) run before either commit, then the two locked phases run
and commit in turn — the second one against the first one's committed
state, as the row lock hand-off produces under read-committed isolation. -/
def racePost : SysState :=
  match updateScorePhaseA exEnv rcState rcReq1 "tok1" with
  | (.error _, s1) => s1
  | (.ok a1, s1) =>
    match updateScorePhaseA exEnvB s1 rcReq2 "tok1" with
    | (.error _, s2) => s2
    | (.ok a2, s2) =>
      (updateScorePhaseB exEnvB (updateScorePhaseB exEnv s2 rcReq1 a1).2 rcReq2 a2).2

/-- Leaderboard row: user `userB` at 500. -/
def rowB : ScoreRow := ⟨"userB", 500, 0, 0⟩

/-- Leaderboard row: user `userA` at 500 (`"userA" < "userB"`). -/
def rowA : ScoreRow := ⟨"userA", 500, 0, 0⟩

end Fixtures

section Claims

/-- Claim C10: `generateActionToken` always mints a token whose `expiresAt`
is exactly 300000 ms (5 minutes) past the issuance clock and whose initial
state is `pending`, for every user, action kind, prior state and random
draw — the window is the fixed constant `Date.now() + 300000`. -/
theorem token_expiry_constant_5min (env : Env) (s : SysState)
    (userId actionType actionId token : String) :
    (generateActionToken env s userId actionType actionId token).1.expiresAt =
        env.now + 300000 ∧
    (generateActionToken env s userId actionType actionId token).2.store.actions.head? =
      some { id := actionId, userId := userId, actionType := actionType,
             status := ActionStatus.pending, token := token, createdAt := env.now,
             expiresAt := env.now + 300000, completedAt := none } :=
  ⟨rfl, rfl⟩

/-- Claim C2: whenever `updateScore` fails — invalid, consumed or expired
token, admission rejection, missing score row, or store conflict — the whole
atomic unit aborts: the score table, the history table and the action-token
table are all exactly as before the call. -/
theorem atomic_unit_aborts_cleanly (env : Env) (s : SysState) (r : ScoreUpdateRequest)
    (tok : String) (h : exceptOk (updateScore env s r tok).1 = false) :
    (updateScore env s r tok).2.store.scores = s.store.scores ∧
    (updateScore env s r tok).2.store.history = s.store.history ∧
    (updateScore env s r tok).2.store.actions = s.store.actions := by
  cases hu : updateScore env s r tok with
  | mk res s2 =>
    have h' : exceptOk res = false := by rw [hu] at h; exact h
    rcases updateScore_cases hu with ⟨_, hst⟩ | ⟨a, s1, row, _, _, _, _, _, hres, _⟩
    · show s2.store.scores = s.store.scores ∧ s2.store.history = s.store.history ∧
        s2.store.actions = s.store.actions
      rw [hst]
      exact ⟨rfl, rfl, rfl⟩
    · rw [hres] at h'
      simp [exceptOk] at h'

/-- Witness for C2: a call with a wrong token secret fails and leaves all
three tables untouched. -/
theorem atomic_unit_aborts_cleanly_witness :
    (updateScore exEnv exState exReq "badtok").2.store.scores = exState.store.scores ∧
    (updateScore exEnv exState exReq "badtok").2.store.history = exState.store.history ∧
    (updateScore exEnv exState exReq "badtok").2.store.actions = exState.store.actions :=
  atomic_unit_aborts_cleanly exEnv exState exReq "badtok" (by decide)

/-- Claim C9, counterexample: `calculateLeaderboard` applies no ascending
user-id tie-break.  With `userA` and `userB` both at score 500 and `userB`
stored first, the top-K result lists `userB` before `userA`, although
`"userA" < "userB"`. -/
theorem leaderboard_tie_keeps_row_order :
    calculateLeaderboard [rowB, rowA] = [rowB, rowA] ∧
    rowA.userId.data < rowB.userId.data ∧
    rowA.currentScore = rowB.currentScore := by
  refine ⟨rfl, by decide, rfl⟩

/-- Claim C9 (amended): the leaderboard query returns at most 10 rows drawn
from the score table, sorted by descending score only; no secondary user-id
key orders equal scores. -/
theorem leaderboard_sorted_desc_top10 (t : List ScoreRow) :
    (calculateLeaderboard t).Pairwise (fun a b => b.currentScore ≤ a.currentScore) ∧
    (∀ e ∈ calculateLeaderboard t, e ∈ t) ∧
    (calculateLeaderboard t).length ≤ 10 := by
  refine ⟨List.Pairwise.sublist (List.take_sublist _ _) (pairwise_sortByScoreDesc t), ?_, ?_⟩
  · intro e he
    exact mem_sortByScoreDesc.mp (List.take_subset _ _ he)
  · exact List.length_take_le 10 (sortByScoreDesc t)

/-- Witness for C9: the two-row tie instantiates the sortedness, membership
and length bounds of the leaderboard query. -/
theorem leaderboard_sorted_desc_top10_witness :
    (calculateLeaderboard [rowB, rowA]).Pairwise
        (fun a b => b.currentScore ≤ a.currentScore) ∧
    (∀ e ∈ calculateLeaderboard [rowB, rowA], e ∈ [rowB, rowA]) ∧
    (calculateLeaderboard [rowB, rowA]).length ≤ 10 :=
  leaderboard_sorted_desc_top10 [rowB, rowA]

/-- Claim C7, counterexample: a rejected admission attempt (checksum
mismatch) leaves the whole state — in particular the `last_action` and
`action_count` rate counters — completely unchanged, so rejected attempts
do not count toward rate limits. -/
theorem rejected_attempt_leaves_counters :
    validateScoreUpdate exEnv exState { exReq with checksum := "bad" } =
      (false, exState) ∧
    getLastActionTime exState "u1" = none ∧
    getActionCount exState "u1" 3600 = 0 := by
  refine ⟨rfl, rfl, rfl⟩

/-- Claim C7 (amended): the admission check updates the per-user rate
counters exactly when the decision is Accept; on any rejection the state is
returned unchanged. -/
theorem counters_updated_iff_accepted (env : Env) (s : SysState) (r : ScoreUpdateRequest) :
    (validateScoreUpdate env s r).2 =
      if (validateScoreUpdate env s r).1 then recordAction s r else s := by
  unfold validateScoreUpdate
  repeat' split
  all_goals first
  | rfl
  | simp_all

/-- Claim C6, counterexample: a delta failing only the proof check and a
delta failing only the magnitude bound produce the same admission outcome
`(false, state unchanged)` — the decision carries no reject reason, so
`ProofInvalid` is not distinguishable from `MagnitudeExceeded`. -/
theorem admission_reject_reasons_indistinguishable :
    validateScoreUpdate exEnv exState { exReq with checksum := "bad" } =
      validateScoreUpdate exEnv exState { exReq with scoreIncrement := 150 } ∧
    validateChecksum exEnv { exReq with checksum := "bad" } = false ∧
    ({ exReq with checksum := "bad" } : ScoreUpdateRequest).scoreIncrement ≤ 100 ∧
    validateChecksum exEnv { exReq with scoreIncrement := 150 } = true ∧
    ({ exReq with scoreIncrement := 150 } : ScoreUpdateRequest).scoreIncrement > 100 := by
  refine ⟨rfl, rfl, by decide, rfl, by decide⟩

/-- Claim C6 (amended): the admission decision accepts exactly when all five
checks — proof, magnitude bound (≤ 100), minimum spacing, hourly volume
(< 100) and pattern detection — pass,short-circuiting in that order; every
rejection is the bare boolean `false` with no reason attached. -/
theorem admission_accept_iff_all_checks (env : Env) (s : SysState) (r : ScoreUpdateRequest) :
    (validateScoreUpdate env s r).1 = true ↔
      (validateChecksum env r = true ∧ r.scoreIncrement ≤ 100 ∧
       spacingTooSmall s r = false ∧ getActionCount s r.userId 3600 < 100 ∧
       detectSuspiciousPatterns env s r = false) := by
  by_cases h1 : validateChecksum env r = true
  · by_cases h2 : r.scoreIncrement > 100
    · have h2' : ¬(r.scoreIncrement ≤ 100) := by omega
      simp [validateScoreUpdate, h1, h2, h2']
    · by_cases h3 : spacingTooSmall s r = true
      · simp [validateScoreUpdate, h1, h2, h3]
      · by_cases h4 : getActionCount s r.userId 3600 ≥ 100
        · have h4' : ¬(getActionCount s r.userId 3600 < 100) := by omega
          simp [validateScoreUpdate, h1, h2, h3, h4, h4']
        · have h4' : getActionCount s r.userId 3600 < 100 := by omega
          by_cases h5 : detectSuspiciousPatterns env s r = true
          · simp [validateScoreUpdate, h1, h2, h3, h4, h5]
          · have h2'' : r.scoreIncrement ≤ 100 := by omega
            simp [validateScoreUpdate, h1, h2, h3, h4, h5, h4', h2'']
  · simp [validateScoreUpdate, h1]

/-- Serialized fragment of the conservation property: over any SERIALIZED
sequence of atomic submitAction units, a user's final score equals the
initial score plus the sum of the increments of exactly the accepted
(token-consuming) calls, and no two history rows reference the same
action-token id.  This fragment is sound; the full claim also covers
concurrent calls, which `concurrent_double_consume` below shows the code
violates. -/
theorem conservation_exactly_once (u : String) (cs : List Call) (s : SysState)
    (hi : Inv s) :
    scoreD (runCalls cs s) u = scoreD s u + acceptedSum u cs s ∧
    ((runCalls cs s).store.history.map (·.actionId)).Nodup :=
  ⟨runCalls_conservation u cs s hi, (runCalls_preserves_Inv cs s hi).2.2.1⟩

/-- Instance of the serialized conservation fragment: two accepted calls
(+50, +30) on distinct tokens leave `u1` at exactly 100 + 80, with distinct
token ids in the history. -/
theorem conservation_exactly_once_witness :
    Inv exState2 ∧
    (scoreD (runCalls exCalls exState2) "u1" =
        scoreD exState2 "u1" + acceptedSum "u1" exCalls exState2 ∧
      (((runCalls exCalls exState2).store.history.map (·.actionId))).Nodup) ∧
    scoreD (runCalls exCalls exState2) "u1" = 180 ∧
    acceptedSum "u1" exCalls exState2 = 80 :=
  ⟨by decide, conservation_exactly_once "u1" exCalls exState2 (by decide),
   by decide, by decide⟩

/-- Claim C1, failing execution: two concurrent submitAction calls present
the SAME pending token (id `a1`, magnitude 50 each, user `u1` initially at
100).  Both pass the unlocked token validation of the pre-lock phase before
either commits — `Action.findOne` takes no lock and `action.update` has no
`status = 'pending'` guard — then both locked phases commit in turn.  The
one accepted delta is applied twice: the final score is 200, not the
150 = 100 + 50 the claim requires, and the history holds two rows with the
same token id, violating both conjuncts of the claimed invariant. -/
theorem concurrent_double_consume :
    exceptOk (updateScorePhaseA exEnv rcState rcReq1 "tok1").1 = true ∧
    exceptOk (updateScorePhaseA exEnvB
        (updateScorePhaseA exEnv rcState rcReq1 "tok1").2 rcReq2 "tok1").1 = true ∧
    rcState.store.actions.map (·.id) = ["a1"] ∧
    scoreD rcState "u1" = 100 ∧
    rcReq1.scoreIncrement = 50 ∧
    rcReq2.scoreIncrement = 50 ∧
    rcReq1.actionId = "a1" ∧
    rcReq2.actionId = "a1" ∧
    scoreD racePost "u1" = 200 ∧
    racePost.store.history.map (·.actionId) = ["a1", "a1"] ∧
    ¬(racePost.store.history.map (·.actionId)).Nodup :=
  ⟨rfl, rfl, rfl, rfl, rfl, rfl, rfl, rfl, rfl, rfl, by decide⟩

/-- Claim C3, counterexample: after a successful submit, a second submit
with the same `(tokenId, secret)` fails with exactly the same generic error
string that an unknown token produces — there is no distinct
`TokenAlreadyConsumed` error in the code. -/
theorem double_submit_error_not_distinct :
    exceptOk (updateScore exEnv exState exReq "tok1").1 = true ∧
    (updateScore exEnvB (updateScore exEnv exState exReq "tok1").2 exReq "tok1").1 =
      .error "Invalid or expired action token" ∧
    (updateScore exEnvB (updateScore exEnv exState exReq "tok1").2
        { exReq with actionId := "nosuch" } "badtok").1 =
      .error "Invalid or expired action token" :=
  ⟨rfl, rfl, rfl⟩

/-- Claim C3 (amended): two submits with the same token yield exactly one
accepted mutation (one history row for that token id); the second call fails
and leaves the state untouched, but with the single generic
`'Invalid or expired action token'` error — not a distinct
`TokenAlreadyConsumed`. -/
theorem double_submit_second_call_generic_error (env env2 : Env) (s : SysState)
    (r : ScoreUpdateRequest) (tok : String) (res : UpdateResult)
    (h : (updateScore env s r tok).1 = .ok res)
    (h0 : s.store.history.countP (fun hrow => hrow.actionId == r.actionId) = 0) :
    ((updateScore env s r tok).2.store.history.countP
        (fun hrow => hrow.actionId == r.actionId)) = 1 ∧
    updateScore env2 (updateScore env s r tok).2 r tok =
      (.error "Invalid or expired action token", (updateScore env s r tok).2) := by
  cases hu : updateScore env s r tok with
  | mk res0 s2 =>
    have h' : res0 = .ok res := by rw [hu] at h; exact h
    subst h'
    obtain ⟨a, row, hfind, hle, hval, heqf, hc, hscores, hhist, hacts, hres⟩ :=
      updateScore_ok_spec hu
    have hpa := List.find?_some hfind
    unfold actMatch at hpa
    simp only [Bool.and_eq_true, beq_iff_eq] at hpa
    obtain ⟨⟨⟨haid, _⟩, _⟩, _⟩ := hpa
    constructor
    · show (s2.store.history.countP (fun hrow => hrow.actionId == r.actionId)) = 1
      rw [hhist, List.countP_cons_of_pos]
      · rw [h0]
      · simp
    · show updateScore env2 s2 r tok = (.error "Invalid or expired action token", s2)
      apply updateScore_invalid_token
      rw [hacts, List.find?_eq_none]
      intro b' hb'
      obtain ⟨b, hb, rfl⟩ := List.mem_map.mp hb'
      by_cases hbid : (b.id == a.id) = true
      · intro hmatch
        rw [if_pos hbid] at hmatch
        unfold actMatch at hmatch
        simp at hmatch
      · intro hmatch
        rw [if_neg hbid] at hmatch
        unfold actMatch at hmatch
        simp only [Bool.and_eq_true, beq_iff_eq] at hmatch
        obtain ⟨⟨⟨hbid2, _⟩, _⟩, _⟩ := hmatch
        apply hbid
        rw [hbid2, ← haid]
        exact beq_self_eq_true a.id

/-- Witness for C3: the concrete double submit — one accepted mutation, and
the second call rejected with the generic error, state unchanged. -/
theorem double_submit_second_call_generic_error_witness :
    (updateScore exEnv exState exReq "tok1").1 =
      .ok { success := true, newScore := 150, rank := some 1, previousRank := some 1 } ∧
    exState.store.history.countP (fun hrow => hrow.actionId == exReq.actionId) = 0 ∧
    (((updateScore exEnv exState exReq "tok1").2.store.history.countP
        (fun hrow => hrow.actionId == exReq.actionId)) = 1 ∧
      updateScore exEnvB (updateScore exEnv exState exReq "tok1").2 exReq "tok1" =
        (.error "Invalid or expired action token",
          (updateScore exEnv exState exReq "tok1").2)) :=
  ⟨rfl, rfl,
   double_submit_second_call_generic_error exEnv exEnvB exState exReq "tok1"
     { success := true, newScore := 150, rank := some 1, previousRank := some 1 } rfl rfl⟩

/-- Claim C4, counterexample: a token presented exactly at its expiry
instant (`now = expiresAt`) is still accepted by `validateActionToken` —
the code rejects only when `now > expiresAt`, not at `now = expiresAt`. -/
theorem consume_at_expiry_instant_accepted :
    validateActionToken exEnvExp exState "tok1" "a1" "u1" = .ok exAction ∧
    exEnvExp.now = exAction.expiresAt ∧
    exceptOk (updateScore exEnvExp exState exReq "tok1").1 = true :=
  ⟨rfl, rfl, rfl⟩

/-- Claim C4 (amended): token consumption succeeds iff a pending action row
matches `(id, user, secret)` and `now ≤ expiresAt` — the boundary instant is
accepted — and every failure (unknown, mismatched, consumed or expired
token) carries the one generic error, so `TokenExpired` is not
distinguishable from `TokenInvalid`. -/
theorem consume_iff_pending_secret_and_unexpired (env : Env) (s : SysState)
    (tok aid uid : String) (hN : (s.store.actions.map (·.id)).Nodup) :
    (exceptOk (validateActionToken env s tok aid uid) = true ↔
      ∃ a, a ∈ s.store.actions ∧ a.id = aid ∧ a.userId = uid ∧ a.token = tok ∧
        a.status = ActionStatus.pending ∧ env.now ≤ a.expiresAt) ∧
    (exceptOk (validateActionToken env s tok aid uid) = false →
      validateActionToken env s tok aid uid =
        .error "Invalid or expired action token") := by
  constructor
  · constructor
    · intro h
      cases hv : validateActionToken env s tok aid uid with
      | error e => rw [hv] at h; simp [exceptOk] at h
      | ok a =>
        obtain ⟨hfind, hle⟩ := (validateActionToken_ok_iff env s tok aid uid a).mp hv
        have hmem := List.mem_of_find?_eq_some hfind
        have hpa := List.find?_some hfind
        unfold actMatch at hpa
        simp only [Bool.and_eq_true, beq_iff_eq] at hpa
        obtain ⟨⟨⟨h1, h2⟩, h3⟩, h4⟩ := hpa
        exact ⟨a, hmem, h1, h2, h3, h4, hle⟩
    · rintro ⟨a, hmem, h1, h2, h3, h4, hle⟩
      have hpa : actMatch tok aid uid a = true := by
        unfold actMatch
        simp [h1, h2, h3, h4]
      have hsome : (s.store.actions.find? (actMatch tok aid uid)).isSome := by
        rw [List.find?_isSome]
        exact ⟨a, hmem, hpa⟩
      obtain ⟨a0, hfind0⟩ := Option.isSome_iff_exists.mp hsome
      have ha0mem := List.mem_of_find?_eq_some hfind0
      have hpa0 := List.find?_some hfind0
      have hida : a0.id = aid := by
        unfold actMatch at hpa0
        simp only [Bool.and_eq_true, beq_iff_eq] at hpa0
        exact hpa0.1.1.1
      have heq : a0 = a := List.inj_on_of_nodup_map hN ha0mem hmem (by rw [hida, h1])
      subst heq
      have hok := (validateActionToken_ok_iff env s tok aid uid a0).mpr ⟨hfind0, hle⟩
      rw [hok]
      rfl
  · exact validateActionToken_error env s tok aid uid

/-- Witness for C4: the fixture state has unique action ids and its pending
token validates, matching the characterization. -/
theorem consume_iff_pending_secret_and_unexpired_witness :
    (exState.store.actions.map (·.id)).Nodup ∧
    ((exceptOk (validateActionToken exEnv exState "tok1" "a1" "u1") = true ↔
      ∃ a, a ∈ exState.store.actions ∧ a.id = "a1" ∧ a.userId = "u1" ∧ a.token = "tok1" ∧
        a.status = ActionStatus.pending ∧ exEnv.now ≤ a.expiresAt) ∧
    (exceptOk (validateActionToken exEnv exState "tok1" "a1" "u1") = false →
      validateActionToken exEnv exState "tok1" "a1" "u1" =
        .error "Invalid or expired action token")) :=
  ⟨by decide, consume_iff_pending_secret_and_unexpired exEnv exState "tok1" "a1" "u1" (by decide)⟩

/-- Claim C5, counterexample: a single store conflict — resolved on any
retry — is surfaced to the caller as an immediate conflict error (the raw
rethrown error, not `MutationFailed` after exhausted retries), although the
same call without the conflict succeeds. -/
theorem store_conflict_not_retried :
    exceptOk (updateScore (⟨500, exHash, 0⟩ : Env) exState exReq "tok1").1 = true ∧
    (updateScore (⟨500, exHash, 1⟩ : Env) exState exReq "tok1").1 =
      .error "Store conflict" ∧
    (updateScore (⟨500, exHash, 1⟩ : Env) exState exReq "tok1").2.store = exState.store :=
  ⟨rfl, rfl, rfl⟩

/-- Claim C5 (amended): when the atomic unit would succeed but the store
reports a conflict, the unit aborts and rethrows the conflict to the caller
on the first occurrence — no retry of the unit happens, however many
attempts a retry budget would allow. -/
theorem store_conflict_aborts_immediately (now : Int)
    (hash : String → String → Int → String) (s : SysState) (r : ScoreUpdateRequest)
    (tok : String) (n : Nat)
    (h : exceptOk (updateScore (⟨now, hash, 0⟩ : Env) s r tok).1 = true) :
    (updateScore (⟨now, hash, n + 1⟩ : Env) s r tok).1 = .error "Store conflict" ∧
    (updateScore (⟨now, hash, n + 1⟩ : Env) s r tok).2.store = s.store := by
  cases hu : updateScore (⟨now, hash, 0⟩ : Env) s r tok with
  | mk res0 s0 =>
    have h' : exceptOk res0 = true := by rw [hu] at h; exact h
    rcases updateScore_cases hu with ⟨hfalse, _⟩ | ⟨a, s1, row, hfind, hle, heqv, heqf, _, _, _⟩
    · rw [hfalse] at h'
      cases h'
    · have hv : validateActionToken (⟨now, hash, n + 1⟩ : Env) s tok r.actionId r.userId =
          .ok a :=
        (validateActionToken_ok_iff (⟨now, hash, n + 1⟩ : Env) s tok r.actionId r.userId a).mpr
          ⟨hfind, hle⟩
      have hs' : validateScoreUpdate (⟨now, hash, n + 1⟩ : Env) s r = (true, s1) := by
        rw [validateScoreUpdate_conflicts now hash (n + 1) 0]
        exact heqv
      have hconf := updateScore_conflict hv hs' heqf (Nat.succ_ne_zero n)
      rw [hconf]
      exact ⟨rfl, rfl⟩

/-- Witness for C5: a call that succeeds with a conflict-free store aborts
with the conflict error when the store conflicts four times. -/
theorem store_conflict_aborts_immediately_witness :
    exceptOk (updateScore (⟨500, exHash, 0⟩ : Env) exState exReq "tok1").1 = true ∧
    ((updateScore (⟨500, exHash, 3 + 1⟩ : Env) exState exReq "tok1").1 =
        .error "Store conflict" ∧
      (updateScore (⟨500, exHash, 3 + 1⟩ : Env) exState exReq "tok1").2.store =
        exState.store) :=
  ⟨rfl, store_conflict_aborts_immediately 500 exHash exState exReq "tok1" 3 rfl⟩

/-- Claim C8, counterexample: the success result does not contain the user's
previous score — two calls from different previous scores (10 and 5) return
byte-for-byte identical results, so `previousScore` cannot be read off the
returned value. -/
theorem result_omits_previous_score :
    (updateScore exEnv exState8a exReq8a "tok1").1 =
      (updateScore exEnv exState8b exReq8b "tok1").1 ∧
    scoreD exState8a "u1" ≠ scoreD exState8b "u1" ∧
    exceptOk (updateScore exEnv exState8a exReq8a "tok1").1 = true :=
  ⟨rfl, by decide, rfl⟩

/-- Claim C8 (amended): every successful call returns `success`, the new
score (equal to the previous score plus the accepted increment), the new
rank and the previous rank; the previous score itself is not a field of the
result — it is recorded in the `ScoreHistory` row written by the call. -/
theorem success_result_fields (env : Env) (s : SysState) (r : ScoreUpdateRequest)
    (tok : String) (res : UpdateResult)
    (h : (updateScore env s r tok).1 = .ok res) :
    ∃ row, s.store.scores.find? (fun q => q.userId == r.userId) = some row ∧
      res.success = true ∧
      res.newScore = row.currentScore + r.scoreIncrement ∧
      res.previousRank = rankOf s.store.scores r.userId ∧
      res.rank = rankOf (updateScore env s r tok).2.store.scores r.userId ∧
      (updateScore env s r tok).2.store.history.head? =
        some { userId := r.userId, actionId := r.actionId,
               scoreChange := r.scoreIncrement, previousScore := row.currentScore,
               newScore := row.currentScore + r.scoreIncrement,
               timestamp := r.timestamp } := by
  cases hu : updateScore env s r tok with
  | mk res0 s2 =>
    have h' : res0 = .ok res := by rw [hu] at h; exact h
    subst h'
    obtain ⟨a, row, hfind, hle, hval, heqf, hc, hscores, hhist, hacts, hres⟩ :=
      updateScore_ok_spec hu
    refine ⟨row, heqf, ?_, ?_, ?_, ?_, ?_⟩
    · rw [hres]
    · rw [hres]
    · rw [hres]
    · show res.rank = rankOf s2.store.scores r.userId
      rw [hres]
    · show s2.store.history.head? = _
      rw [hhist]
      rfl

/-- Witness for C8: the concrete accepted call returns new score 150 from
previous score 100, rank 1 from previous rank 1, and writes the history row
holding the previous score. -/
theorem success_result_fields_witness :
    (updateScore exEnv exState exReq "tok1").1 =
      .ok { success := true, newScore := 150, rank := some 1, previousRank := some 1 } ∧
    (∃ row, exState.store.scores.find? (fun q => q.userId == exReq.userId) = some row ∧
      ({ success := true, newScore := 150, rank := some 1,
         previousRank := some 1 } : UpdateResult).success = true ∧
      ({ success := true, newScore := 150, rank := some 1,
         previousRank := some 1 } : UpdateResult).newScore =
          row.currentScore + exReq.scoreIncrement ∧
      ({ success := true, newScore := 150, rank := some 1,
         previousRank := some 1 } : UpdateResult).previousRank =
          rankOf exState.store.scores exReq.userId ∧
      ({ success := true, newScore := 150, rank := some 1,
         previousRank := some 1 } : UpdateResult).rank =
          rankOf (updateScore exEnv exState exReq "tok1").2.store.scores exReq.userId ∧
      (updateScore exEnv exState exReq "tok1").2.store.history.head? =
        some { userId := exReq.userId, actionId := exReq.actionId,
               scoreChange := exReq.scoreIncrement, previousScore := row.currentScore,
               newScore := row.currentScore + exReq.scoreIncrement,
               timestamp := exReq.timestamp }) :=
  ⟨rfl, success_result_fields exEnv exState exReq "tok1"
    { success := true, newScore := 150, rank := some 1, previousRank := some 1 } rfl⟩

end Claims

end Scoreboard
